import Mathlib

/-
Verification development for the tracker repository.

The Go sources are shallowly embedded as follows.

Rectangles of the Go image package are records of four integer
coordinates.  The function goRect models the image.Rect constructor,
which swaps coordinates per axis when given in the wrong order.
Rect.isEmpty models the Empty method, Rect.add models the Add method
(translation), Rect.Dx and Rect.Dy model the Dx and Dy methods.

Go integer division truncates toward zero; it is modelled by Int.tdiv.
The Go conversion int(f) of a float64 to int also truncates toward
zero; float64 arithmetic on the small configuration values involved is
modelled by exact rational arithmetic, and truncToInt models the
conversion (the numerator of a normalised rational divided by its
denominator, truncating toward zero).
-/

/-- Rectangle with min and max corner coordinates, modelling image.Rectangle. -/
structure Rect where
  minX : ℤ
  minY : ℤ
  maxX : ℤ
  maxY : ℤ
deriving DecidableEq, Repr

/-- Width of a rectangle, modelling the Dx method. -/
def Rect.Dx (r : Rect) : ℤ := r.maxX - r.minX

/-- Height of a rectangle, modelling the Dy method. -/
def Rect.Dy (r : Rect) : ℤ := r.maxY - r.minY

/-- The Empty method of image.Rectangle: true when the rectangle has no interior. -/
def Rect.isEmpty (r : Rect) : Bool :=
  decide (r.maxX ≤ r.minX) || decide (r.maxY ≤ r.minY)

/-- Translation of a rectangle, modelling the Add method of image.Rectangle. -/
def Rect.add (r : Rect) (dx dy : ℤ) : Rect :=
  ⟨r.minX + dx, r.minY + dy, r.maxX + dx, r.maxY + dy⟩

/-- The image.Rect constructor: swaps the coordinates on each axis when needed. -/
def goRect (x0 y0 x1 y1 : ℤ) : Rect :=
  ⟨if x0 ≤ x1 then x0 else x1, if y0 ≤ y1 then y0 else y1,
   if x0 ≤ x1 then x1 else x0, if y0 ≤ y1 then y1 else y0⟩

/-- The zero value image.Rectangle, used by the Go code for an empty result. -/
def emptyRect : Rect := ⟨0, 0, 0, 0⟩

/-- Go conversion int(q) of a number to int, truncating toward zero. -/
def truncToInt (q : ℚ) : ℤ := Int.tdiv q.num (q.den : ℤ)

/-- The quantity int(float64(initialSize) * maxGrowth) computed by ConstrainBoundingBox. -/
def maxAllowedSizeOf (initialSize : ℤ) (maxGrowth : ℚ) : ℤ :=
  truncToInt ((initialSize : ℚ) * maxGrowth)

/-- Body of ConstrainBoundingBox from utils, with the already computed
maxAllowedSize passed as an integer argument.  This mirrors the Go source
statement by statement: clamp each dimension above by maxAllowedSize and
then below by minSize, rebuild the rectangle from integer half dimensions
around the original center, then translate it back inside the frame, one
edge test at a time in source order. -/
def constrainCore (rect : Rect) (maxAllowedSize minSize imgWidth imgHeight : ℤ) : Rect :=
  let currentWidth := rect.Dx
  let currentHeight := rect.Dy
  let newWidth := if currentWidth > maxAllowedSize then maxAllowedSize else currentWidth
  let newHeight := if currentHeight > maxAllowedSize then maxAllowedSize else currentHeight
  let newWidth := if newWidth < minSize then minSize else newWidth
  let newHeight := if newHeight < minSize then minSize else newHeight
  let centerX := rect.minX + Int.tdiv rect.Dx 2
  let centerY := rect.minY + Int.tdiv rect.Dy 2
  let halfWidth := Int.tdiv newWidth 2
  let halfHeight := Int.tdiv newHeight 2
  let newRect := goRect (centerX - halfWidth) (centerY - halfHeight)
    (centerX + halfWidth) (centerY + halfHeight)
  let newRect := if newRect.minX < 0 then newRect.add (-newRect.minX) 0 else newRect
  let newRect := if newRect.minY < 0 then newRect.add 0 (-newRect.minY) else newRect
  let newRect := if newRect.maxX > imgWidth then newRect.add (imgWidth - newRect.maxX) 0 else newRect
  let newRect := if newRect.maxY > imgHeight then newRect.add 0 (imgHeight - newRect.maxY) else newRect
  newRect

/-- ConstrainBoundingBox from the utils package. -/
def ConstrainBoundingBox (rect : Rect) (initialSize : ℤ) (maxGrowth : ℚ)
    (minSize imgWidth imgHeight : ℤ) : Rect :=
  constrainCore rect (maxAllowedSizeOf initialSize maxGrowth) minSize imgWidth imgHeight

/-- Size clamp of one dimension in ConstrainBoundingBox: at most maxAllowedSize
(checked first), then at least minSize. -/
def clampSize (d maxAllowedSize minSize : ℤ) : ℤ :=
  let t := if d > maxAllowedSize then maxAllowedSize else d
  if t < minSize then minSize else t

/-- One axis of the rectangle rebuild in ConstrainBoundingBox: the coordinate
pair is put in order (as the image.Rect constructor does), then shifted right
if the low edge is negative, then shifted left if the high edge exceeds the
bound, in the same order as the Go source. -/
def fitAxis (x0 x1 bound : ℤ) : ℤ × ℤ :=
  let p0 := if x0 ≤ x1 then (x0, x1) else (x1, x0)
  let p1 := if p0.1 < 0 then (0, p0.2 - p0.1) else p0
  if p1.2 > bound then (p1.1 + (bound - p1.2), bound) else p1

/-- One full axis of constrainCore: clamp the size, recenter, fit into the frame. -/
def constrainAxis (lo hi maxAllowedSize minSize bound : ℤ) : ℤ × ℤ :=
  let size := clampSize (hi - lo) maxAllowedSize minSize
  let c := lo + Int.tdiv (hi - lo) 2
  let half := Int.tdiv size 2
  fitAxis (c - half) (c + half) bound

theorem tdiv_two_eq (a : ℤ) (h : 0 ≤ a) : Int.tdiv a 2 = a / 2 := by
  unfold Int.tdiv
  match a, h with
  | Int.ofNat n, _ => rfl

theorem constrainCore_minX (r : Rect) (M m W H : ℤ) :
    (constrainCore r M m W H).minX = (constrainAxis r.minX r.maxX M m W).1 := by
  simp only [constrainCore, constrainAxis, clampSize, fitAxis, goRect, Rect.add,
    Rect.Dx, Rect.Dy, apply_ite Rect.minX, apply_ite Rect.maxX, apply_ite Rect.minY,
    apply_ite Rect.maxY, apply_ite (Prod.fst (α := ℤ) (β := ℤ)),
    apply_ite (Prod.snd (α := ℤ) (β := ℤ)), add_zero, ite_self]
  split_ifs <;> omega

theorem constrainCore_maxX (r : Rect) (M m W H : ℤ) :
    (constrainCore r M m W H).maxX = (constrainAxis r.minX r.maxX M m W).2 := by
  simp only [constrainCore, constrainAxis, clampSize, fitAxis, goRect, Rect.add,
    Rect.Dx, Rect.Dy, apply_ite Rect.minX, apply_ite Rect.maxX, apply_ite Rect.minY,
    apply_ite Rect.maxY, apply_ite (Prod.fst (α := ℤ) (β := ℤ)),
    apply_ite (Prod.snd (α := ℤ) (β := ℤ)), add_zero, ite_self]
  split_ifs <;> omega

theorem constrainCore_minY (r : Rect) (M m W H : ℤ) :
    (constrainCore r M m W H).minY = (constrainAxis r.minY r.maxY M m H).1 := by
  simp only [constrainCore, constrainAxis, clampSize, fitAxis, goRect, Rect.add,
    Rect.Dx, Rect.Dy, apply_ite Rect.minX, apply_ite Rect.maxX, apply_ite Rect.minY,
    apply_ite Rect.maxY, apply_ite (Prod.fst (α := ℤ) (β := ℤ)),
    apply_ite (Prod.snd (α := ℤ) (β := ℤ)), add_zero, ite_self]
  split_ifs <;> omega

theorem constrainCore_maxY (r : Rect) (M m W H : ℤ) :
    (constrainCore r M m W H).maxY = (constrainAxis r.minY r.maxY M m H).2 := by
  simp only [constrainCore, constrainAxis, clampSize, fitAxis, goRect, Rect.add,
    Rect.Dx, Rect.Dy, apply_ite Rect.minX, apply_ite Rect.maxX, apply_ite Rect.minY,
    apply_ite Rect.maxY, apply_ite (Prod.fst (α := ℤ) (β := ℤ)),
    apply_ite (Prod.snd (α := ℤ) (β := ℤ)), add_zero, ite_self]
  split_ifs <;> omega

attribute [ext] Rect

theorem clampSize_lower (d M m : ℤ) : m ≤ clampSize d M m := by
  simp only [clampSize]
  split_ifs <;> omega

theorem clampSize_upper (d M m : ℤ) : clampSize d M m ≤ max m M := by
  simp only [clampSize, max_def]
  split_ifs <;> omega

theorem clampSize_halfStable (d M m : ℤ) :
    2 * (clampSize (2 * (clampSize d M m / 2)) M m / 2) = 2 * (clampSize d M m / 2) := by
  simp only [clampSize]
  split_ifs <;> omega

theorem fitAxis_size (x0 x1 b : ℤ) :
    (fitAxis x0 x1 b).2 - (fitAxis x0 x1 b).1 = if x0 ≤ x1 then x1 - x0 else x0 - x1 := by
  simp only [fitAxis]
  split_ifs <;> simp_all <;> omega

theorem fitAxis_bounds (x0 x1 b : ℤ) (hord : x0 ≤ x1) (hsz : x1 - x0 ≤ b) :
    0 ≤ (fitAxis x0 x1 b).1 ∧ (fitAxis x0 x1 b).2 ≤ b := by
  simp only [fitAxis]
  split_ifs <;> simp_all <;> omega

theorem fitAxis_fix (x0 x1 b : ℤ) (hord : x0 ≤ x1) :
    fitAxis (fitAxis x0 x1 b).1 (fitAxis x0 x1 b).2 b = fitAxis x0 x1 b := by
  simp only [fitAxis]
  split_ifs <;> simp_all [Prod.ext_iff] <;> omega

theorem constrainAxis_size (lo hi M m b : ℤ) (h : 0 ≤ m) :
    (constrainAxis lo hi M m b).2 - (constrainAxis lo hi M m b).1
      = 2 * (clampSize (hi - lo) M m / 2) := by
  have hs0 : (0:ℤ) ≤ clampSize (hi - lo) M m := le_trans h (clampSize_lower _ _ _)
  simp only [constrainAxis, tdiv_two_eq _ hs0]
  have h2 := fitAxis_size (lo + Int.tdiv (hi - lo) 2 - clampSize (hi - lo) M m / 2)
      (lo + Int.tdiv (hi - lo) 2 + clampSize (hi - lo) M m / 2) b
  rw [if_pos (by omega)] at h2
  omega

theorem constrainAxis_bounds (lo hi M m b : ℤ) (h : 0 ≤ m) (hbm : max m M ≤ b) :
    0 ≤ (constrainAxis lo hi M m b).1 ∧ (constrainAxis lo hi M m b).2 ≤ b := by
  have hs := clampSize_lower (hi - lo) M m
  have hu := clampSize_upper (hi - lo) M m
  have hs0 : (0:ℤ) ≤ clampSize (hi - lo) M m := le_trans h hs
  rw [max_def] at hu hbm
  simp only [constrainAxis, tdiv_two_eq _ hs0]
  refine fitAxis_bounds _ _ _ (by omega) (by split_ifs at hu hbm <;> omega)

theorem constrainAxis_even (lo hi M m b : ℤ) :
    Even ((constrainAxis lo hi M m b).2 - (constrainAxis lo hi M m b).1) := by
  simp only [constrainAxis]
  have h2 := fitAxis_size
      (lo + Int.tdiv (hi - lo) 2 - Int.tdiv (clampSize (hi - lo) M m) 2)
      (lo + Int.tdiv (hi - lo) 2 + Int.tdiv (clampSize (hi - lo) M m) 2) b
  by_cases hc : lo + Int.tdiv (hi - lo) 2 - Int.tdiv (clampSize (hi - lo) M m) 2
      ≤ lo + Int.tdiv (hi - lo) 2 + Int.tdiv (clampSize (hi - lo) M m) 2
  · rw [if_pos hc] at h2
    exact ⟨Int.tdiv (clampSize (hi - lo) M m) 2, by omega⟩
  · rw [if_neg hc] at h2
    exact ⟨-Int.tdiv (clampSize (hi - lo) M m) 2, by omega⟩

theorem constrainAxis_idem (lo hi M m b : ℤ) (h : 0 ≤ m) :
    constrainAxis (constrainAxis lo hi M m b).1 (constrainAxis lo hi M m b).2 M m b
      = constrainAxis lo hi M m b := by
  have hs0 : (0:ℤ) ≤ clampSize (hi - lo) M m := le_trans h (clampSize_lower _ _ _)
  have hk0 : (0:ℤ) ≤ clampSize (hi - lo) M m / 2 := Int.ediv_nonneg hs0 (by norm_num)
  have hvu : (constrainAxis lo hi M m b).2 - (constrainAxis lo hi M m b).1
      = 2 * (clampSize (hi - lo) M m / 2) := constrainAxis_size lo hi M m b h
  have hout : constrainAxis lo hi M m b
      = fitAxis (lo + Int.tdiv (hi - lo) 2 - clampSize (hi - lo) M m / 2)
          (lo + Int.tdiv (hi - lo) 2 + clampSize (hi - lo) M m / 2) b := by
    simp only [constrainAxis, tdiv_two_eq _ hs0]
  set y := constrainAxis lo hi M m b with hy
  have hs20 : (0:ℤ) ≤ clampSize (y.2 - y.1) M m := le_trans h (clampSize_lower _ _ _)
  have hstab := clampSize_halfStable (hi - lo) M m
  have hhalf2 : Int.tdiv (clampSize (y.2 - y.1) M m) 2 = clampSize (hi - lo) M m / 2 := by
    rw [tdiv_two_eq _ hs20, hvu]
    omega
  have hcent2 : Int.tdiv (y.2 - y.1) 2 = clampSize (hi - lo) M m / 2 := by
    rw [hvu, tdiv_two_eq _ (by omega)]
    omega
  simp only [constrainAxis, hhalf2, hcent2]
  have heq1 : y.1 + clampSize (hi - lo) M m / 2 - clampSize (hi - lo) M m / 2 = y.1 := by omega
  have heq2 : y.1 + clampSize (hi - lo) M m / 2 + clampSize (hi - lo) M m / 2 = y.2 := by omega
  rw [heq1, heq2, hout]
  exact fitAxis_fix _ _ _ (by omega)

/-- Claim C3, amended.  The original claim quantifies over every minSize and
every frame bounds; it fails when the even truncation of an odd minSize puts
the output dimension one below minSize, and when the clamped size exceeds a
frame dimension, in which case the shifted rectangle sticks out on the low
side.  As amended, for nonnegative minSize and frames large enough to hold
max minSize maxAllowedSize, ConstrainBoundingBox returns a rectangle inside
the frame whose dimensions lie between 2 * (minSize / 2) and
max minSize maxAllowedSize. -/
theorem claim3_constrain_in_bounds (r : Rect) (initialSize : ℤ) (maxGrowth : ℚ)
    (minSize imgWidth imgHeight : ℤ) (hm : 0 ≤ minSize)
    (hW : max minSize (maxAllowedSizeOf initialSize maxGrowth) ≤ imgWidth)
    (hH : max minSize (maxAllowedSizeOf initialSize maxGrowth) ≤ imgHeight) :
    0 ≤ (ConstrainBoundingBox r initialSize maxGrowth minSize imgWidth imgHeight).minX ∧
    (ConstrainBoundingBox r initialSize maxGrowth minSize imgWidth imgHeight).maxX ≤ imgWidth ∧
    0 ≤ (ConstrainBoundingBox r initialSize maxGrowth minSize imgWidth imgHeight).minY ∧
    (ConstrainBoundingBox r initialSize maxGrowth minSize imgWidth imgHeight).maxY ≤ imgHeight ∧
    2 * (minSize / 2) ≤ (ConstrainBoundingBox r initialSize maxGrowth minSize imgWidth imgHeight).Dx ∧
    (ConstrainBoundingBox r initialSize maxGrowth minSize imgWidth imgHeight).Dx
      ≤ max minSize (maxAllowedSizeOf initialSize maxGrowth) ∧
    2 * (minSize / 2) ≤ (ConstrainBoundingBox r initialSize maxGrowth minSize imgWidth imgHeight).Dy ∧
    (ConstrainBoundingBox r initialSize maxGrowth minSize imgWidth imgHeight).Dy
      ≤ max minSize (maxAllowedSizeOf initialSize maxGrowth) := by
  simp only [ConstrainBoundingBox, Rect.Dx, Rect.Dy]
  have bx := constrainAxis_bounds r.minX r.maxX (maxAllowedSizeOf initialSize maxGrowth)
      minSize imgWidth hm hW
  have hy := constrainAxis_bounds r.minY r.maxY (maxAllowedSizeOf initialSize maxGrowth)
      minSize imgHeight hm hH
  have sx := constrainAxis_size r.minX r.maxX (maxAllowedSizeOf initialSize maxGrowth)
      minSize imgWidth hm
  have sy := constrainAxis_size r.minY r.maxY (maxAllowedSizeOf initialSize maxGrowth)
      minSize imgHeight hm
  have cxl := clampSize_lower (r.maxX - r.minX) (maxAllowedSizeOf initialSize maxGrowth) minSize
  have cxu := clampSize_upper (r.maxX - r.minX) (maxAllowedSizeOf initialSize maxGrowth) minSize
  have cyl := clampSize_lower (r.maxY - r.minY) (maxAllowedSizeOf initialSize maxGrowth) minSize
  have cyu := clampSize_upper (r.maxY - r.minY) (maxAllowedSizeOf initialSize maxGrowth) minSize
  rw [constrainCore_minX, constrainCore_maxX, constrainCore_minY, constrainCore_maxY]
  refine ⟨bx.1, bx.2, hy.1, hy.2, by omega, by omega, by omega, by omega⟩

/-- Claim C3 counterexample.  With minSize 41 larger than the 30 by 30 frame,
the rectangle built from 10 by 10 input sticks out on the negative side and
its width 40 is below minSize, refuting the unconditional claim. -/
theorem claim3_counterexample :
    ConstrainBoundingBox ⟨0, 0, 10, 10⟩ 10 2 41 30 30 = ⟨-10, -10, 30, 30⟩ ∧
    (ConstrainBoundingBox ⟨0, 0, 10, 10⟩ 10 2 41 30 30).minX < 0 ∧
    (ConstrainBoundingBox ⟨0, 0, 10, 10⟩ 10 2 41 30 30).Dx < 41 := by
  have hM : maxAllowedSizeOf 10 2 = 20 := by norm_num [maxAllowedSizeOf, truncToInt]
  simp only [ConstrainBoundingBox, hM]
  decide

/-- Claim C3 witness at a concrete input. -/
theorem claim3_witness :
    0 ≤ (ConstrainBoundingBox ⟨0, 0, 200, 200⟩ 50 2 40 640 480).minX ∧
    (ConstrainBoundingBox ⟨0, 0, 200, 200⟩ 50 2 40 640 480).maxX ≤ 640 ∧
    0 ≤ (ConstrainBoundingBox ⟨0, 0, 200, 200⟩ 50 2 40 640 480).minY ∧
    (ConstrainBoundingBox ⟨0, 0, 200, 200⟩ 50 2 40 640 480).maxY ≤ 480 ∧
    2 * (40 / 2) ≤ (ConstrainBoundingBox ⟨0, 0, 200, 200⟩ 50 2 40 640 480).Dx ∧
    (ConstrainBoundingBox ⟨0, 0, 200, 200⟩ 50 2 40 640 480).Dx ≤ max 40 (maxAllowedSizeOf 50 2) ∧
    2 * (40 / 2) ≤ (ConstrainBoundingBox ⟨0, 0, 200, 200⟩ 50 2 40 640 480).Dy ∧
    (ConstrainBoundingBox ⟨0, 0, 200, 200⟩ 50 2 40 640 480).Dy ≤ max 40 (maxAllowedSizeOf 50 2) :=
  claim3_constrain_in_bounds ⟨0, 0, 200, 200⟩ 50 2 40 640 480 (by decide)
    (by have hM : maxAllowedSizeOf 50 2 = 100 := by norm_num [maxAllowedSizeOf, truncToInt]
        rw [hM]; decide)
    (by have hM : maxAllowedSizeOf 50 2 = 100 := by norm_num [maxAllowedSizeOf, truncToInt]
        rw [hM]; decide)

/-- Claim C4, confirmed.  ConstrainBoundingBox is idempotent: applying it a
second time with the same parameters returns its own output unchanged.  The
hypotheses hDx and hDy state the proviso of the claim that the second input,
namely the first output, satisfies the size bounds; hm states the standing
assumption that minSize is nonnegative, as in every configuration of the
program. -/
theorem claim4_constrain_idempotent (r : Rect) (initialSize : ℤ) (maxGrowth : ℚ)
    (minSize imgWidth imgHeight : ℤ) (hm : 0 ≤ minSize)
    (hDx : minSize ≤ (ConstrainBoundingBox r initialSize maxGrowth minSize imgWidth imgHeight).Dx ∨
      (ConstrainBoundingBox r initialSize maxGrowth minSize imgWidth imgHeight).Dx
        ≤ max minSize (maxAllowedSizeOf initialSize maxGrowth))
    (hDy : minSize ≤ (ConstrainBoundingBox r initialSize maxGrowth minSize imgWidth imgHeight).Dy ∨
      (ConstrainBoundingBox r initialSize maxGrowth minSize imgWidth imgHeight).Dy
        ≤ max minSize (maxAllowedSizeOf initialSize maxGrowth)) :
    ConstrainBoundingBox (ConstrainBoundingBox r initialSize maxGrowth minSize imgWidth imgHeight)
        initialSize maxGrowth minSize imgWidth imgHeight
      = ConstrainBoundingBox r initialSize maxGrowth minSize imgWidth imgHeight := by
  simp only [ConstrainBoundingBox]
  have ix := constrainAxis_idem r.minX r.maxX (maxAllowedSizeOf initialSize maxGrowth)
      minSize imgWidth hm
  have iy := constrainAxis_idem r.minY r.maxY (maxAllowedSizeOf initialSize maxGrowth)
      minSize imgHeight hm
  apply Rect.ext <;>
    simp only [constrainCore_minX, constrainCore_maxX, constrainCore_minY, constrainCore_maxY,
      ix, iy]

/-- Claim C4 witness at a concrete input. -/
theorem claim4_witness :
    ConstrainBoundingBox (ConstrainBoundingBox ⟨0, 0, 200, 200⟩ 50 2 40 640 640) 50 2 40 640 640
      = ConstrainBoundingBox ⟨0, 0, 200, 200⟩ 50 2 40 640 640 :=
  claim4_constrain_idempotent ⟨0, 0, 200, 200⟩ 50 2 40 640 640 (by decide)
    (Or.inl (by
      have hM : maxAllowedSizeOf 50 2 = 100 := by norm_num [maxAllowedSizeOf, truncToInt]
      simp only [ConstrainBoundingBox, hM]
      decide))
    (Or.inl (by
      have hM : maxAllowedSizeOf 50 2 = 100 := by norm_num [maxAllowedSizeOf, truncToInt]
      simp only [ConstrainBoundingBox, hM]
      decide))

/-- Claim C10, confirmed.  The rectangle returned by ConstrainBoundingBox
always has even width and even height, because it is rebuilt from integer
half dimensions; consequently, when the binding clamp value (minSize, or the
computed maxAllowedSize) is odd, the output dimension is one pixel below that
nominal bound.  The conditional conjuncts state the two binding cases for
each axis, under the standing nonnegativity of minSize. -/
theorem claim10_even_dimensions (r : Rect) (initialSize : ℤ) (maxGrowth : ℚ)
    (minSize imgWidth imgHeight : ℤ) :
    (Even ((ConstrainBoundingBox r initialSize maxGrowth minSize imgWidth imgHeight).Dx) ∧
     Even ((ConstrainBoundingBox r initialSize maxGrowth minSize imgWidth imgHeight).Dy)) ∧
    (0 ≤ minSize → Odd minSize → r.Dx ≤ minSize →
      (ConstrainBoundingBox r initialSize maxGrowth minSize imgWidth imgHeight).Dx = minSize - 1) ∧
    (0 ≤ minSize → Odd minSize → r.Dy ≤ minSize →
      (ConstrainBoundingBox r initialSize maxGrowth minSize imgWidth imgHeight).Dy = minSize - 1) ∧
    (0 ≤ minSize → minSize ≤ maxAllowedSizeOf initialSize maxGrowth →
      Odd (maxAllowedSizeOf initialSize maxGrowth) → maxAllowedSizeOf initialSize maxGrowth < r.Dx →
      (ConstrainBoundingBox r initialSize maxGrowth minSize imgWidth imgHeight).Dx
        = maxAllowedSizeOf initialSize maxGrowth - 1) ∧
    (0 ≤ minSize → minSize ≤ maxAllowedSizeOf initialSize maxGrowth →
      Odd (maxAllowedSizeOf initialSize maxGrowth) → maxAllowedSizeOf initialSize maxGrowth < r.Dy →
      (ConstrainBoundingBox r initialSize maxGrowth minSize imgWidth imgHeight).Dy
        = maxAllowedSizeOf initialSize maxGrowth - 1) := by
  simp only [ConstrainBoundingBox]
  refine ⟨⟨?_, ?_⟩, ?_, ?_, ?_, ?_⟩
  · rw [Rect.Dx, constrainCore_minX, constrainCore_maxX]
    exact constrainAxis_even _ _ _ _ _
  · rw [Rect.Dy, constrainCore_minY, constrainCore_maxY]
    exact constrainAxis_even _ _ _ _ _
  · intro hm ho hle
    rw [Int.odd_iff] at ho
    rw [Rect.Dx] at hle
    have hsz := constrainAxis_size r.minX r.maxX (maxAllowedSizeOf initialSize maxGrowth)
        minSize imgWidth hm
    have hcl : clampSize (r.maxX - r.minX) (maxAllowedSizeOf initialSize maxGrowth) minSize
        = minSize := by
      simp only [clampSize]
      split_ifs <;> omega
    rw [hcl] at hsz
    rw [Rect.Dx, constrainCore_minX, constrainCore_maxX]
    omega
  · intro hm ho hle
    rw [Int.odd_iff] at ho
    rw [Rect.Dy] at hle
    have hsz := constrainAxis_size r.minY r.maxY (maxAllowedSizeOf initialSize maxGrowth)
        minSize imgHeight hm
    have hcl : clampSize (r.maxY - r.minY) (maxAllowedSizeOf initialSize maxGrowth) minSize
        = minSize := by
      simp only [clampSize]
      split_ifs <;> omega
    rw [hcl] at hsz
    rw [Rect.Dy, constrainCore_minY, constrainCore_maxY]
    omega
  · intro hm hmM ho hgt
    rw [Int.odd_iff] at ho
    rw [Rect.Dx] at hgt
    have hsz := constrainAxis_size r.minX r.maxX (maxAllowedSizeOf initialSize maxGrowth)
        minSize imgWidth hm
    have hcl : clampSize (r.maxX - r.minX) (maxAllowedSizeOf initialSize maxGrowth) minSize
        = maxAllowedSizeOf initialSize maxGrowth := by
      simp only [clampSize]
      split_ifs <;> omega
    rw [hcl] at hsz
    rw [Rect.Dx, constrainCore_minX, constrainCore_maxX]
    omega
  · intro hm hmM ho hgt
    rw [Int.odd_iff] at ho
    rw [Rect.Dy] at hgt
    have hsz := constrainAxis_size r.minY r.maxY (maxAllowedSizeOf initialSize maxGrowth)
        minSize imgHeight hm
    have hcl : clampSize (r.maxY - r.minY) (maxAllowedSizeOf initialSize maxGrowth) minSize
        = maxAllowedSizeOf initialSize maxGrowth := by
      simp only [clampSize]
      split_ifs <;> omega
    rw [hcl] at hsz
    rw [Rect.Dy, constrainCore_minY, constrainCore_maxY]
    omega

/-- Claim C10 witness at a concrete input with odd minSize 41. -/
theorem claim10_witness :
    Even ((ConstrainBoundingBox ⟨0, 0, 10, 10⟩ 50 2 41 640 480).Dx) ∧
    (ConstrainBoundingBox ⟨0, 0, 10, 10⟩ 50 2 41 640 480).Dx = 40 := by
  have h := claim10_even_dimensions ⟨0, 0, 10, 10⟩ 50 2 41 640 480
  refine ⟨h.1.1, ?_⟩
  have h2 := h.2.1 (by decide) (by decide) (by decide)
  omega

/-- Tracking configuration from the types package. -/
structure TrackingConfig where
  maxROIGrowth : ℚ
  minROISize : ℤ
  maxTrackingFailures : ℤ
  searchRadius : ℤ
  sizeChangeThreshold : ℚ
  minContourArea : ℚ
  stabilizationFrames : ℤ
deriving DecidableEq

/-- DefaultTrackingConfig from the types package. -/
def DefaultTrackingConfig : TrackingConfig :=
  ⟨2, 40, 12, 120, 5, 500, 30⟩

/-- The fields of AppState that the tracking and input code reads or writes.
The opaque vision handles (tracker, background subtractor, frame matrices)
and the recording fields are omitted: the tracker is modelled as an oracle
argument at each call, see ProcessTracking. -/
structure AppState where
  trackingEnabled : Bool
  autoTrackingEnabled : Bool
  roiSelectionMode : Bool
  trackingFailureCount : ℤ
  lastKnownRect : Rect
  initialROISize : ℤ
  roiCenterX : ℤ
  roiCenterY : ℤ
  roiWidth : ℤ
  roiHeight : ℤ
deriving DecidableEq

/-- Result of the opaque tracker Update call: a rectangle and a success flag. -/
structure UpdateResult where
  rect : Rect
  ok : Bool
deriving DecidableEq

/-- Average of width and height, as computed by the Go expression
(rect.Dx() + rect.Dy()) / 2 with integer division. -/
def avgSize (r : Rect) : ℤ := Int.tdiv (r.Dx + r.Dy) 2

/-- The size ratio float64(currentSize) / float64(lastSize) computed in
ProcessTracking, modelled over the rationals. -/
def sizeChangeOf (lastRect newRect : Rect) : ℚ :=
  (avgSize newRect : ℚ) / (avgSize lastRect : ℚ)

/-- The suspicious size change test of ProcessTracking: the last known
rectangle is non empty and the size ratio exceeds the threshold or is below
its reciprocal. -/
def driftSuspected (cfg : TrackingConfig) (lastRect newRect : Rect) : Bool :=
  !lastRect.isEmpty &&
    (decide (sizeChangeOf lastRect newRect > cfg.sizeChangeThreshold) ||
     decide (sizeChangeOf lastRect newRect < 1 / cfg.sizeChangeThreshold))

/-- ProcessTracking from the tracking package.  The opaque tracker Update
call is passed in as the argument upd; the outcome of the recovery attempt
(the tracker Init call inside TryTrackingRecovery) is passed in as the
oracle recoverOk; frameCols and frameRows are the frame dimensions.  The
returned pair is the new state and the returned rectangle. -/
def ProcessTracking (s : AppState) (upd : UpdateResult) (recoverOk : Bool)
    (cfg : TrackingConfig) (frameCols frameRows : ℤ) : AppState × Rect :=
  if !s.trackingEnabled then (s, emptyRect)
  else if upd.ok then
    let s0 : AppState := { s with trackingFailureCount := 0 }
    if driftSuspected cfg s0.lastKnownRect upd.rect then
      ({ s0 with trackingFailureCount := s0.trackingFailureCount + 1 }, s0.lastKnownRect)
    else
      let newRect := ConstrainBoundingBox upd.rect s.initialROISize cfg.maxROIGrowth
          cfg.minROISize frameCols frameRows
      ({ s0 with lastKnownRect := newRect }, newRect)
  else
    let s1 : AppState := { s with trackingFailureCount := s.trackingFailureCount + 1 }
    if s1.trackingFailureCount ≥ cfg.maxTrackingFailures then
      ({ s1 with
          trackingEnabled := false
          trackingFailureCount := 0
          autoTrackingEnabled := if !s1.roiSelectionMode then true else s1.autoTrackingEnabled },
        emptyRect)
    else if !s1.lastKnownRect.isEmpty then
      (if recoverOk then { s1 with trackingFailureCount := 0 } else s1, s1.lastKnownRect)
    else
      (s1, emptyRect)

/-- Iterated ProcessTracking over a list of tracker update results, with the
recovery oracle fixed to false (it is never consulted on successful updates). -/
def ProcessTrackingRun (cfg : TrackingConfig) (frameCols frameRows : ℤ)
    (s : AppState) (upds : List UpdateResult) : AppState :=
  upds.foldl (fun st u => (ProcessTracking st u false cfg frameCols frameRows).1) s

/-- Derived tracking mode of a state, in the vocabulary of the specification:
ActiveTracking when the tracking flag is set, otherwise AutoSearching when the
auto tracking flag is set, otherwise Idle. -/
inductive TrackMode where
  | Idle : TrackMode
  | AutoSearching : TrackMode
  | ActiveTracking : TrackMode
deriving DecidableEq

/-- Mode readout of a state. -/
def trackMode (s : AppState) : TrackMode :=
  if s.trackingEnabled then TrackMode.ActiveTracking
  else if s.autoTrackingEnabled then TrackMode.AutoSearching
  else TrackMode.Idle

theorem processTracking_drift_step (s : AppState) (upd : UpdateResult) (recoverOk : Bool)
    (cfg : TrackingConfig) (frameCols frameRows : ℤ)
    (htrack : s.trackingEnabled = true) (hok : upd.ok = true)
    (hdrift : driftSuspected cfg s.lastKnownRect upd.rect = true) :
    (ProcessTracking s upd recoverOk cfg frameCols frameRows).1.trackingFailureCount = 1 ∧
    (ProcessTracking s upd recoverOk cfg frameCols frameRows).1.trackingEnabled = true ∧
    (ProcessTracking s upd recoverOk cfg frameCols frameRows).1.autoTrackingEnabled
      = s.autoTrackingEnabled ∧
    (ProcessTracking s upd recoverOk cfg frameCols frameRows).1.roiSelectionMode
      = s.roiSelectionMode ∧
    (ProcessTracking s upd recoverOk cfg frameCols frameRows).1.lastKnownRect = s.lastKnownRect ∧
    (ProcessTracking s upd recoverOk cfg frameCols frameRows).2 = s.lastKnownRect := by
  simp [ProcessTracking, htrack, hok, hdrift]

/-- Claim C1, amended.  On a successful update with the drift test firing,
ProcessTracking does not update lastKnownRegion, emits the prior
lastKnownRegion as the returned rectangle without passing it through the
growth constraint, and sets the failure counter to exactly one: the
successful update first resets the counter to zero and the drift branch then
increments it.  The original claim says the counter is incremented, which
fails when the counter was positive on entry; see the counterexample. -/
theorem claim1_drift_uses_last_known (s : AppState) (upd : UpdateResult) (recoverOk : Bool)
    (cfg : TrackingConfig) (frameCols frameRows : ℤ)
    (htrack : s.trackingEnabled = true) (hok : upd.ok = true)
    (hdrift : driftSuspected cfg s.lastKnownRect upd.rect = true) :
    (ProcessTracking s upd recoverOk cfg frameCols frameRows).2 = s.lastKnownRect ∧
    (ProcessTracking s upd recoverOk cfg frameCols frameRows).1.lastKnownRect
      = s.lastKnownRect ∧
    (ProcessTracking s upd recoverOk cfg frameCols frameRows).1.trackingFailureCount = 1 ∧
    (ProcessTracking s upd recoverOk cfg frameCols frameRows).1.trackingEnabled = true := by
  have h := processTracking_drift_step s upd recoverOk cfg frameCols frameRows htrack hok hdrift
  exact ⟨h.2.2.2.2.2, h.2.2.2.2.1, h.1, h.2.1⟩

/-- Claim C1 counterexample.  Starting from a drift firing state whose failure
counter is 3, the counter after the frame is 1, not 4: the claim that the
counter is incremented fails, because the successful update resets it first. -/
theorem claim1_counterexample :
    (⟨⟨0, 0, 80, 80⟩, true⟩ : UpdateResult).ok = true ∧
    driftSuspected DefaultTrackingConfig (⟨0, 0, 10, 10⟩ : Rect) (⟨0, 0, 80, 80⟩ : Rect)
      = true ∧
    (⟨true, false, false, 3, ⟨0, 0, 10, 10⟩, 10, 0, 0, 0, 0⟩ : AppState).trackingFailureCount
      = 3 ∧
    (ProcessTracking ⟨true, false, false, 3, ⟨0, 0, 10, 10⟩, 10, 0, 0, 0, 0⟩
        ⟨⟨0, 0, 80, 80⟩, true⟩ false DefaultTrackingConfig 640 480).1.trackingFailureCount
      = 1 ∧
    ¬ ((ProcessTracking ⟨true, false, false, 3, ⟨0, 0, 10, 10⟩, 10, 0, 0, 0, 0⟩
        ⟨⟨0, 0, 80, 80⟩, true⟩ false DefaultTrackingConfig 640 480).1.trackingFailureCount
      = 3 + 1) := by
  have h1 : avgSize (⟨0, 0, 80, 80⟩ : Rect) = 80 := by decide
  have h2 : avgSize (⟨0, 0, 10, 10⟩ : Rect) = 10 := by decide
  have hd : driftSuspected DefaultTrackingConfig (⟨0, 0, 10, 10⟩ : Rect)
      (⟨0, 0, 80, 80⟩ : Rect) = true := by
    norm_num [driftSuspected, sizeChangeOf, h1, h2, Rect.isEmpty, DefaultTrackingConfig]
  refine ⟨rfl, hd, rfl, ?_, ?_⟩
  · simp [ProcessTracking, hd]
  · simp [ProcessTracking, hd]

/-- Claim C1 witness at a concrete drift firing input. -/
theorem claim1_witness :
    (ProcessTracking ⟨true, true, false, 0, ⟨0, 0, 10, 10⟩, 10, 0, 0, 0, 0⟩
        ⟨⟨0, 0, 80, 80⟩, true⟩ false DefaultTrackingConfig 640 480).2 = ⟨0, 0, 10, 10⟩ ∧
    (ProcessTracking ⟨true, true, false, 0, ⟨0, 0, 10, 10⟩, 10, 0, 0, 0, 0⟩
        ⟨⟨0, 0, 80, 80⟩, true⟩ false DefaultTrackingConfig 640 480).1.lastKnownRect
      = ⟨0, 0, 10, 10⟩ ∧
    (ProcessTracking ⟨true, true, false, 0, ⟨0, 0, 10, 10⟩, 10, 0, 0, 0, 0⟩
        ⟨⟨0, 0, 80, 80⟩, true⟩ false DefaultTrackingConfig 640 480).1.trackingFailureCount
      = 1 ∧
    (ProcessTracking ⟨true, true, false, 0, ⟨0, 0, 10, 10⟩, 10, 0, 0, 0, 0⟩
        ⟨⟨0, 0, 80, 80⟩, true⟩ false DefaultTrackingConfig 640 480).1.trackingEnabled
      = true :=
  claim1_drift_uses_last_known ⟨true, true, false, 0, ⟨0, 0, 10, 10⟩, 10, 0, 0, 0, 0⟩
    ⟨⟨0, 0, 80, 80⟩, true⟩ false DefaultTrackingConfig 640 480 rfl rfl
    (by
      have h1 : avgSize (⟨0, 0, 80, 80⟩ : Rect) = 80 := by decide
      have h2 : avgSize (⟨0, 0, 10, 10⟩ : Rect) = 10 := by decide
      norm_num [driftSuspected, sizeChangeOf, h1, h2, Rect.isEmpty, DefaultTrackingConfig])

/-- Claim C2, confirmed.  When a tracker update failure makes the failure
counter reach maxTrackingFailures, the session leaves ActiveTracking, enters
AutoSearching (or, when a manual ROI selection is in progress, is left with
both tracking flags off, the Idle readout of the tracking mode), and the
counter resets to zero.  The hypothesis hinv is the reachable state invariant
that auto tracking is never enabled during manual selection. -/
theorem claim2_giveup_transition (s : AppState) (upd : UpdateResult) (recoverOk : Bool)
    (cfg : TrackingConfig) (frameCols frameRows : ℤ)
    (htrack : s.trackingEnabled = true) (hfail : upd.ok = false)
    (hmax : cfg.maxTrackingFailures ≤ s.trackingFailureCount + 1)
    (hinv : s.roiSelectionMode = true → s.autoTrackingEnabled = false) :
    trackMode s = TrackMode.ActiveTracking ∧
    trackMode (ProcessTracking s upd recoverOk cfg frameCols frameRows).1
      = (if s.roiSelectionMode then TrackMode.Idle else TrackMode.AutoSearching) ∧
    (ProcessTracking s upd recoverOk cfg frameCols frameRows).1.trackingFailureCount = 0 ∧
    (ProcessTracking s upd recoverOk cfg frameCols frameRows).2 = emptyRect := by
  have hge : ({ s with trackingFailureCount := s.trackingFailureCount + 1 }
      : AppState).trackingFailureCount ≥ cfg.maxTrackingFailures := hmax
  cases hroi : s.roiSelectionMode with
  | false =>
    simp [ProcessTracking, trackMode, htrack, hfail, hroi, hge]
  | true =>
    simp [ProcessTracking, trackMode, htrack, hfail, hroi, hge, hinv hroi]

/-- Claim C2 witness at a concrete input reaching the failure threshold. -/
theorem claim2_witness :
    trackMode ⟨true, false, false, 11, ⟨0, 0, 10, 10⟩, 10, 0, 0, 0, 0⟩
      = TrackMode.ActiveTracking ∧
    trackMode (ProcessTracking ⟨true, false, false, 11, ⟨0, 0, 10, 10⟩, 10, 0, 0, 0, 0⟩
        ⟨emptyRect, false⟩ false DefaultTrackingConfig 640 480).1
      = (if (⟨true, false, false, 11, ⟨0, 0, 10, 10⟩, 10, 0, 0, 0, 0⟩
          : AppState).roiSelectionMode then TrackMode.Idle else TrackMode.AutoSearching) ∧
    (ProcessTracking ⟨true, false, false, 11, ⟨0, 0, 10, 10⟩, 10, 0, 0, 0, 0⟩
        ⟨emptyRect, false⟩ false DefaultTrackingConfig 640 480).1.trackingFailureCount = 0 ∧
    (ProcessTracking ⟨true, false, false, 11, ⟨0, 0, 10, 10⟩, 10, 0, 0, 0, 0⟩
        ⟨emptyRect, false⟩ false DefaultTrackingConfig 640 480).2 = emptyRect :=
  claim2_giveup_transition ⟨true, false, false, 11, ⟨0, 0, 10, 10⟩, 10, 0, 0, 0, 0⟩
    ⟨emptyRect, false⟩ false DefaultTrackingConfig 640 480 rfl rfl (by decide) (by decide)

/-- Claim C7, amended.  On the permanent loss transition (failure counter
reaching maxTrackingFailures) the code does not clear lastKnownRegion: it is
retained unchanged.  The original claim, following the specification, says it
is cleared to the empty rectangle; see the counterexample. -/
theorem claim7_lastknown_retained (s : AppState) (upd : UpdateResult) (recoverOk : Bool)
    (cfg : TrackingConfig) (frameCols frameRows : ℤ)
    (htrack : s.trackingEnabled = true) (hfail : upd.ok = false)
    (hmax : cfg.maxTrackingFailures ≤ s.trackingFailureCount + 1) :
    (ProcessTracking s upd recoverOk cfg frameCols frameRows).1.lastKnownRect
      = s.lastKnownRect := by
  have hge : ({ s with trackingFailureCount := s.trackingFailureCount + 1 }
      : AppState).trackingFailureCount ≥ cfg.maxTrackingFailures := hmax
  simp [ProcessTracking, htrack, hfail, hge]

/-- Claim C7 counterexample.  A state with a non empty lastKnownRegion that
hits the permanent loss transition keeps that rectangle: after the transition
the tracking flag is off, auto search is on, yet lastKnownRegion is still the
old non empty rectangle rather than the empty one. -/
theorem claim7_counterexample :
    (ProcessTracking ⟨true, false, false, 11, ⟨0, 0, 10, 10⟩, 10, 0, 0, 0, 0⟩
        ⟨emptyRect, false⟩ false DefaultTrackingConfig 640 480).1.trackingEnabled = false ∧
    (ProcessTracking ⟨true, false, false, 11, ⟨0, 0, 10, 10⟩, 10, 0, 0, 0, 0⟩
        ⟨emptyRect, false⟩ false DefaultTrackingConfig 640 480).1.autoTrackingEnabled = true ∧
    (ProcessTracking ⟨true, false, false, 11, ⟨0, 0, 10, 10⟩, 10, 0, 0, 0, 0⟩
        ⟨emptyRect, false⟩ false DefaultTrackingConfig 640 480).1.lastKnownRect
      = ⟨0, 0, 10, 10⟩ ∧
    (⟨0, 0, 10, 10⟩ : Rect).isEmpty = false := by decide

/-- Claim C7 witness at a concrete input. -/
theorem claim7_witness :
    (ProcessTracking ⟨true, true, false, 20, ⟨1, 2, 3, 4⟩, 10, 0, 0, 0, 0⟩
        ⟨emptyRect, false⟩ false DefaultTrackingConfig 640 480).1.lastKnownRect
      = ⟨1, 2, 3, 4⟩ :=
  claim7_lastknown_retained ⟨true, true, false, 20, ⟨1, 2, 3, 4⟩, 10, 0, 0, 0, 0⟩
    ⟨emptyRect, false⟩ false DefaultTrackingConfig 640 480 rfl rfl (by decide)

/-- Claim C9, confirmed.  Over any nonempty run of frames in which the tracker
update succeeds but the size ratio drift test fires, the failure counter is
exactly one after every frame of the run (each successful update resets it to
zero before the drift increment), the session never leaves ActiveTracking, and
the auto search flag and lastKnownRegion are unchanged; hence suspected drift
alone can never accumulate to maxTrackingFailures and never triggers the give
up transition, which lives only in the update failure branch.  Since the
theorem quantifies over every such run, it applies to every prefix of a run,
giving the counter value after each frame. -/
theorem claim9_drift_run_counter (cfg : TrackingConfig) (frameCols frameRows : ℤ)
    (s : AppState) (upds : List UpdateResult)
    (htrack : s.trackingEnabled = true) (hne : upds ≠ [])
    (hall : ∀ u ∈ upds, u.ok = true ∧ driftSuspected cfg s.lastKnownRect u.rect = true) :
    (ProcessTrackingRun cfg frameCols frameRows s upds).trackingFailureCount = 1 ∧
    (ProcessTrackingRun cfg frameCols frameRows s upds).trackingEnabled = true ∧
    (ProcessTrackingRun cfg frameCols frameRows s upds).autoTrackingEnabled
      = s.autoTrackingEnabled ∧
    (ProcessTrackingRun cfg frameCols frameRows s upds).lastKnownRect = s.lastKnownRect := by
  induction upds generalizing s with
  | nil => exact absurd rfl hne
  | cons u rest ih =>
    have hu := hall u (List.mem_cons_self u rest)
    have hstep := processTracking_drift_step s u false cfg frameCols frameRows htrack hu.1 hu.2
    have hrun : ProcessTrackingRun cfg frameCols frameRows s (u :: rest)
        = ProcessTrackingRun cfg frameCols frameRows
            (ProcessTracking s u false cfg frameCols frameRows).1 rest := rfl
    cases rest with
    | nil =>
      rw [hrun]
      exact ⟨hstep.1, hstep.2.1, hstep.2.2.1, hstep.2.2.2.2.1⟩
    | cons v t =>
      rw [hrun]
      have ih2 := ih (ProcessTracking s u false cfg frameCols frameRows).1 hstep.2.1
          (by simp)
          (fun w hw => by
            rw [hstep.2.2.2.2.1]
            exact hall w (List.mem_cons_of_mem u hw))
      refine ⟨ih2.1, ih2.2.1, ?_, ?_⟩
      · rw [ih2.2.2.1, hstep.2.2.1]
      · rw [ih2.2.2.2, hstep.2.2.2.2.1]

/-- Claim C9 witness on a concrete run of two drift firing frames. -/
theorem claim9_witness :
    (ProcessTrackingRun DefaultTrackingConfig 640 480
        ⟨true, true, false, 5, ⟨0, 0, 10, 10⟩, 10, 0, 0, 0, 0⟩
        [⟨⟨0, 0, 80, 80⟩, true⟩, ⟨⟨0, 0, 90, 90⟩, true⟩]).trackingFailureCount = 1 ∧
    (ProcessTrackingRun DefaultTrackingConfig 640 480
        ⟨true, true, false, 5, ⟨0, 0, 10, 10⟩, 10, 0, 0, 0, 0⟩
        [⟨⟨0, 0, 80, 80⟩, true⟩, ⟨⟨0, 0, 90, 90⟩, true⟩]).trackingEnabled = true ∧
    (ProcessTrackingRun DefaultTrackingConfig 640 480
        ⟨true, true, false, 5, ⟨0, 0, 10, 10⟩, 10, 0, 0, 0, 0⟩
        [⟨⟨0, 0, 80, 80⟩, true⟩, ⟨⟨0, 0, 90, 90⟩, true⟩]).autoTrackingEnabled
      = (⟨true, true, false, 5, ⟨0, 0, 10, 10⟩, 10, 0, 0, 0, 0⟩ : AppState).autoTrackingEnabled ∧
    (ProcessTrackingRun DefaultTrackingConfig 640 480
        ⟨true, true, false, 5, ⟨0, 0, 10, 10⟩, 10, 0, 0, 0, 0⟩
        [⟨⟨0, 0, 80, 80⟩, true⟩, ⟨⟨0, 0, 90, 90⟩, true⟩]).lastKnownRect = ⟨0, 0, 10, 10⟩ := by
  have h1 : avgSize (⟨0, 0, 80, 80⟩ : Rect) = 80 := by decide
  have h2 : avgSize (⟨0, 0, 10, 10⟩ : Rect) = 10 := by decide
  have h3 : avgSize (⟨0, 0, 90, 90⟩ : Rect) = 90 := by decide
  have hd1 : driftSuspected DefaultTrackingConfig (⟨0, 0, 10, 10⟩ : Rect)
      (⟨0, 0, 80, 80⟩ : Rect) = true := by
    norm_num [driftSuspected, sizeChangeOf, h1, h2, Rect.isEmpty, DefaultTrackingConfig]
  have hd2 : driftSuspected DefaultTrackingConfig (⟨0, 0, 10, 10⟩ : Rect)
      (⟨0, 0, 90, 90⟩ : Rect) = true := by
    norm_num [driftSuspected, sizeChangeOf, h3, h2, Rect.isEmpty, DefaultTrackingConfig]
  exact claim9_drift_run_counter DefaultTrackingConfig 640 480
    ⟨true, true, false, 5, ⟨0, 0, 10, 10⟩, 10, 0, 0, 0, 0⟩
    [⟨⟨0, 0, 80, 80⟩, true⟩, ⟨⟨0, 0, 90, 90⟩, true⟩] rfl (by simp)
    (by
      intro u hu
      simp only [List.mem_cons, List.not_mem_nil, or_false] at hu
      rcases hu with h | h
      · subst h
        exact ⟨rfl, hd1⟩
      · subst h
        exact ⟨rfl, hd2⟩)

/-- The contour selection loop of ProcessAutoTracking.  Contours are
abstracted by their areas (floats, modelled as rationals) in iteration
order.  The accumulator mirrors the Go loop: idx models
largestContourIndex (none for -1) and big models largestArea, which is
zero initialised; an element is taken when its area exceeds both the
running largest area and the configured minimum contour area. -/
def selGo (minArea : ℚ) : List ℚ → ℕ → Option ℕ → ℚ → Option ℕ
  | [], _, idx, _ => idx
  | a :: rest, i, idx, big =>
    if big < a ∧ minArea < a then selGo minArea rest (i + 1) (some i) a
    else selGo minArea rest (i + 1) idx big

/-- The full selection of ProcessAutoTracking: index of the chosen contour. -/
def selectLargestContour (areas : List ℚ) (minArea : ℚ) : Option ℕ :=
  selGo minArea areas 0 none 0

/-- Area of the contour at an index, with the zero area default off the end. -/
def areaAt (areas : List ℚ) (j : ℕ) : ℚ := areas.getD j 0

/-- The selection rule as the specification words it: the index is in range,
its area is strictly above the threshold, no contour above the threshold has
a strictly larger area, and every earlier contour above the threshold has a
strictly smaller area (first in iteration order wins an exact tie). -/
def claimSelectionRule (areas : List ℚ) (thr : ℚ) (i : ℕ) : Prop :=
  i < areas.length ∧ thr < areaAt areas i ∧
    (∀ j, j < areas.length → thr < areaAt areas j → areaAt areas j ≤ areaAt areas i) ∧
    (∀ j, j < i → thr < areaAt areas j → areaAt areas j < areaAt areas i)

/-- The padding and clamping of the selected bounding rectangle in
ProcessAutoTracking: 20 pixels are added on all sides through the image.Rect
constructor, then each edge is clamped to the frame separately (the clamps
set coordinates, they do not translate). -/
def padClampROI (roi : Rect) (frameCols frameRows : ℤ) : Rect :=
  let r0 := goRect (roi.minX - 20) (roi.minY - 20) (roi.maxX + 20) (roi.maxY + 20)
  let r1 := if r0.minX < 0 then { r0 with minX := 0 } else r0
  let r2 := if r1.minY < 0 then { r1 with minY := 0 } else r1
  let r3 := if r2.maxX > frameCols then { r2 with maxX := frameCols } else r2
  if r3.maxY > frameRows then { r3 with maxY := frameRows } else r3

theorem selGo_of_none (minArea big : ℚ) (l : List ℚ) (i : ℕ) (idx : Option ℕ)
    (h : ∀ j, j < l.length → ¬(big < areaAt l j ∧ minArea < areaAt l j)) :
    selGo minArea l i idx big = idx := by
  induction l generalizing i idx with
  | nil => rfl
  | cons a t ih =>
    have h0 := h 0 (by simp)
    simp only [areaAt, List.getD_cons_zero] at h0
    simp only [selGo, if_neg h0]
    exact ih (i + 1) idx (fun j hj => by
      have h2 := h (j + 1) (by simpa using Nat.succ_lt_succ hj)
      simpa [areaAt, List.getD_cons_succ] using h2)

theorem selGo_of_exists (minArea : ℚ) (l : List ℚ) :
    ∀ (i : ℕ) (idx : Option ℕ) (big : ℚ),
    (∃ j, j < l.length ∧ big < areaAt l j ∧ minArea < areaAt l j) →
    ∃ j, j < l.length ∧ selGo minArea l i idx big = some (i + j) ∧
      big < areaAt l j ∧ minArea < areaAt l j ∧
      (∀ k, k < l.length → big < areaAt l k → minArea < areaAt l k →
        areaAt l k ≤ areaAt l j) ∧
      (∀ k, k < j → big < areaAt l k → minArea < areaAt l k →
        areaAt l k < areaAt l j) := by
  induction l with
  | nil =>
    intro i idx big h
    obtain ⟨j, hj, _⟩ := h
    simp at hj
  | cons a t ih =>
    intro i idx big h
    by_cases hc : big < a ∧ minArea < a
    · by_cases ht : ∃ j, j < t.length ∧ a < areaAt t j ∧ minArea < areaAt t j
      · obtain ⟨j', hlen, heq, hbig, hm, hmax, hstrict⟩ := ih (i + 1) (some i) a ht
        refine ⟨j' + 1, by simpa using Nat.succ_lt_succ hlen, ?_, ?_, ?_, ?_, ?_⟩
        · simp only [selGo]
          rw [if_pos hc, heq]
          congr 1
          omega
        · simp only [areaAt, List.getD_cons_succ]
          exact lt_trans hc.1 hbig
        · simp only [areaAt, List.getD_cons_succ]
          exact hm
        · intro k hk hbk hmk
          cases k with
          | zero =>
            simp only [areaAt, List.getD_cons_zero, List.getD_cons_succ]
            exact le_of_lt hbig
          | succ k' =>
            simp only [areaAt, List.getD_cons_succ] at hbk hmk ⊢
            by_cases hka : a < areaAt t k'
            · exact hmax k' (by simpa using Nat.lt_of_succ_lt_succ hk) hka hmk
            · push_neg at hka
              exact le_trans hka (le_of_lt hbig)
        · intro k hk hbk hmk
          cases k with
          | zero =>
            simp only [areaAt, List.getD_cons_zero, List.getD_cons_succ]
            exact hbig
          | succ k' =>
            simp only [areaAt, List.getD_cons_succ] at hbk hmk ⊢
            by_cases hka : a < areaAt t k'
            · exact hstrict k' (Nat.lt_of_succ_lt_succ hk) hka hmk
            · push_neg at hka
              exact lt_of_le_of_lt hka hbig
      · have hnone := selGo_of_none minArea a t (i + 1) (some i)
            (fun j hj hcon => ht ⟨j, hj, hcon⟩)
        refine ⟨0, by simp, ?_, ?_, ?_, ?_, ?_⟩
        · simp only [selGo]
          rw [if_pos hc, hnone]
          congr 1
        · simpa [areaAt] using hc.1
        · simpa [areaAt] using hc.2
        · intro k hk hbk hmk
          cases k with
          | zero => simp [areaAt]
          | succ k' =>
            simp only [areaAt, List.getD_cons_succ, List.getD_cons_zero] at hbk hmk ⊢
            by_contra hgt
            push_neg at hgt
            exact ht ⟨k', by simpa using Nat.lt_of_succ_lt_succ hk, hgt, hmk⟩
        · intro k hk hbk hmk
          exact absurd hk (Nat.not_lt_zero k)
    · obtain ⟨j0, hj0len, hj0b, hj0m⟩ := h
      have hex' : ∃ j, j < t.length ∧ big < areaAt t j ∧ minArea < areaAt t j := by
        cases j0 with
        | zero =>
          exact absurd ⟨by simpa [areaAt] using hj0b, by simpa [areaAt] using hj0m⟩ hc
        | succ j1 =>
          exact ⟨j1, by simpa using Nat.lt_of_succ_lt_succ hj0len,
            by simpa [areaAt, List.getD_cons_succ] using hj0b,
            by simpa [areaAt, List.getD_cons_succ] using hj0m⟩
      obtain ⟨j', hlen, heq, hbig, hm, hmax, hstrict⟩ := ih (i + 1) idx big hex'
      refine ⟨j' + 1, by simpa using Nat.succ_lt_succ hlen, ?_, ?_, ?_, ?_, ?_⟩
      · simp only [selGo]
        rw [if_neg hc, heq]
        congr 1
        omega
      · simpa [areaAt, List.getD_cons_succ] using hbig
      · simpa [areaAt, List.getD_cons_succ] using hm
      · intro k hk hbk hmk
        cases k with
        | zero =>
          simp only [areaAt, List.getD_cons_zero] at hbk hmk
          exact absurd ⟨hbk, hmk⟩ hc
        | succ k' =>
          simp only [areaAt, List.getD_cons_succ] at hbk hmk ⊢
          exact hmax k' (by simpa using Nat.lt_of_succ_lt_succ hk) hbk hmk
      · intro k hk hbk hmk
        cases k with
        | zero =>
          simp only [areaAt, List.getD_cons_zero] at hbk hmk
          exact absurd ⟨hbk, hmk⟩ hc
        | succ k' =>
          simp only [areaAt, List.getD_cons_succ] at hbk hmk ⊢
          exact hstrict k' (Nat.lt_of_succ_lt_succ hk) hbk hmk

/-- Claim C5, amended.  The contour selection of ProcessAutoTracking picks
the first strictly largest area among contours whose area exceeds
max minArea 0, not minArea alone: because the running largest area is zero
initialised and the comparison is strict, a contour with area not above zero
is never selected even when minArea is negative; see the counterexample.  The
second conjunct states the padding and clamping of the selected bounding
rectangle: 20 pixels on all sides, then each edge clamped to the frame.  The
third conjunct is the concrete instance of the claim: areas 100, 600, 550
with minArea 500 select the area 600 contour at index 1. -/
theorem claim5_autodetect_selection :
    (∀ (areas : List ℚ) (minArea : ℚ) (i : ℕ),
        selectLargestContour areas minArea = some i ↔
          claimSelectionRule areas (max minArea 0) i) ∧
    (∀ (roi : Rect) (frameCols frameRows : ℤ),
        roi.minX ≤ roi.maxX → roi.minY ≤ roi.maxY →
        padClampROI roi frameCols frameRows
          = ⟨max (roi.minX - 20) 0, max (roi.minY - 20) 0,
             min (roi.maxX + 20) frameCols, min (roi.maxY + 20) frameRows⟩) ∧
    selectLargestContour [100, 600, 550] 500 = some 1 := by
  refine ⟨?_, ?_, ?_⟩
  · intro areas minArea i
    constructor
    · intro h
      by_cases hex : ∃ j, j < areas.length ∧ (0:ℚ) < areaAt areas j ∧ minArea < areaAt areas j
      · obtain ⟨j, hlen, heq, hbig, hm, hmax, hstrict⟩ :=
          selGo_of_exists minArea areas 0 none 0 hex
        rw [selectLargestContour] at h
        rw [h] at heq
        have hij : i = j := by
          injection heq with h2
          omega
        subst hij
        exact ⟨hlen, max_lt_iff.mpr ⟨hm, hbig⟩,
          fun k hk hthr => hmax k hk (max_lt_iff.mp hthr).2 (max_lt_iff.mp hthr).1,
          fun k hk hthr => hstrict k hk (max_lt_iff.mp hthr).2 (max_lt_iff.mp hthr).1⟩
      · have hnone := selGo_of_none minArea 0 areas 0 none
            (fun j hj hcon => hex ⟨j, hj, hcon⟩)
        rw [selectLargestContour, hnone] at h
        exact absurd h (by simp)
    · intro hr
      obtain ⟨hilen, hit, hmaxr, hstrictr⟩ := hr
      have hit' := max_lt_iff.mp hit
      have hex : ∃ j, j < areas.length ∧ (0:ℚ) < areaAt areas j ∧ minArea < areaAt areas j :=
        ⟨i, hilen, hit'.2, hit'.1⟩
      obtain ⟨j, hlen, heq, hbig, hm, hmax, hstrict⟩ :=
        selGo_of_exists minArea areas 0 none 0 hex
      have h1 : areaAt areas j ≤ areaAt areas i := hmaxr j hlen (max_lt_iff.mpr ⟨hm, hbig⟩)
      have h2 : areaAt areas i ≤ areaAt areas j := hmax i hilen hit'.2 hit'.1
      have hij : i = j := by
        rcases Nat.lt_trichotomy i j with hlt | heqn | hgt
        · exact absurd (hstrict i hlt hit'.2 hit'.1) (not_lt.mpr h1)
        · exact heqn
        · exact absurd (hstrictr j hgt (max_lt_iff.mpr ⟨hm, hbig⟩)) (not_lt.mpr h2)
      rw [selectLargestContour, heq, hij]
      simp
  · intro roi frameCols frameRows hx hy
    apply Rect.ext <;>
      (simp only [padClampROI, goRect, apply_ite Rect.minX, apply_ite Rect.maxX,
          apply_ite Rect.minY, apply_ite Rect.maxY, ite_self]
       split_ifs <;> omega)
  · norm_num [selectLargestContour, selGo]

/-- Claim C5 counterexample.  With a single contour of area zero and a
negative minArea, the claimed rule selects index 0 (its area exceeds minArea
and it is the largest), but the code selects nothing, because the zero
initialised running largest area demands a strictly positive area. -/
theorem claim5_counterexample :
    selectLargestContour [0] (-1) = none ∧ claimSelectionRule [0] (-1) 0 := by
  constructor
  · norm_num [selectLargestContour, selGo]
  · refine ⟨by norm_num, by norm_num [areaAt], ?_, ?_⟩
    · intro j hj hthr
      rw [List.length_singleton, Nat.lt_one_iff] at hj
      subst hj
      simp [areaAt]
    · intro j hj
      exact absurd hj (Nat.not_lt_zero j)

/-- Claim C5 witness: the padding and clamping conjunct at a concrete input. -/
theorem claim5_witness :
    padClampROI ⟨100, 100, 200, 200⟩ 640 480
      = ⟨max (100 - 20) 0, max (100 - 20) 0, min (200 + 20) 640, min (200 + 20) 480⟩ :=
  claim5_autodetect_selection.2.1 ⟨100, 100, 200, 200⟩ 640 480 (by decide) (by decide)

/-- The four directional nudge keys of HandleROIKeys. -/
inductive NudgeKey where
  | up : NudgeKey
  | down : NudgeKey
  | left : NudgeKey
  | right : NudgeKey
deriving DecidableEq

/-- One directional nudge of HandleROIKeys: the center moves ten pixels on
one axis, then the code applies the single clamp it has for that direction
(up and left clamp only the low side, down and right clamp only the high
side), using the current half width or half height. -/
def applyROINudge (frameCols frameRows roiWidth roiHeight : ℤ) (c : ℤ × ℤ) :
    NudgeKey → ℤ × ℤ
  | NudgeKey.up =>
    let y := c.2 - 10
    (c.1, if y < Int.tdiv roiHeight 2 then Int.tdiv roiHeight 2 else y)
  | NudgeKey.down =>
    let y := c.2 + 10
    (c.1, if y > frameRows - Int.tdiv roiHeight 2 then frameRows - Int.tdiv roiHeight 2 else y)
  | NudgeKey.left =>
    let x := c.1 - 10
    (if x < Int.tdiv roiWidth 2 then Int.tdiv roiWidth 2 else x, c.2)
  | NudgeKey.right =>
    let x := c.1 + 10
    (if x > frameCols - Int.tdiv roiWidth 2 then frameCols - Int.tdiv roiWidth 2 else x, c.2)

/-- A finite sequence of directional nudges applied in order. -/
def applyROINudges (frameCols frameRows roiWidth roiHeight : ℤ) (c : ℤ × ℤ)
    (ks : List NudgeKey) : ℤ × ℤ :=
  ks.foldl (applyROINudge frameCols frameRows roiWidth roiHeight) c

/-- The selection rectangle derived from the center and the integer half
dimensions lies inside the frame. -/
def roiRectInBounds (frameCols frameRows roiWidth roiHeight cx cy : ℤ) : Prop :=
  0 ≤ cx - Int.tdiv roiWidth 2 ∧ cx + Int.tdiv roiWidth 2 ≤ frameCols ∧
  0 ≤ cy - Int.tdiv roiHeight 2 ∧ cy + Int.tdiv roiHeight 2 ≤ frameRows

instance (fc fr w h cx cy : ℤ) : Decidable (roiRectInBounds fc fr w h cx cy) := by
  unfold roiRectInBounds
  infer_instance

theorem applyROINudge_preserves (fc fr w h : ℤ) (c : ℤ × ℤ) (k : NudgeKey)
    (hin : roiRectInBounds fc fr w h c.1 c.2) :
    roiRectInBounds fc fr w h (applyROINudge fc fr w h c k).1
      (applyROINudge fc fr w h c k).2 := by
  cases k <;>
    (simp only [applyROINudge, roiRectInBounds] at hin ⊢
     split_ifs <;> omega)

/-- Claim C6, amended.  A nudge clamps only the edge it moves toward, so a
selection whose rectangle is already outside the frame can stay outside after
a nudge; the claim does not hold regardless of the starting center, see the
counterexample.  As amended: from any start whose derived rectangle lies
inside the frame, every finite sequence of nudges keeps the derived rectangle
inside the frame (the theorem quantifies over all sequences, hence over every
prefix, giving the bound after each nudge). -/
theorem claim6_nudges_stay_in_bounds (fc fr w h : ℤ) (c : ℤ × ℤ) (ks : List NudgeKey)
    (hin : roiRectInBounds fc fr w h c.1 c.2) :
    roiRectInBounds fc fr w h (applyROINudges fc fr w h c ks).1
      (applyROINudges fc fr w h c ks).2 := by
  induction ks generalizing c with
  | nil => exact hin
  | cons k t ih => exact ih _ (applyROINudge_preserves fc fr w h c k hin)

/-- Claim C6 counterexample.  In a 640 by 480 frame with a 100 by 100
selection, a center at height 10000 nudged up moves to 9990, and the derived
rectangle still reaches far below the frame: a nudge does not restore the
bound, refuting the claim for arbitrary starting centers. -/
theorem claim6_counterexample :
    applyROINudge 640 480 100 100 (320, 10000) NudgeKey.up = (320, 9990) ∧
    ¬ roiRectInBounds 640 480 100 100 320 9990 := by decide

/-- Claim C6 witness on a concrete in bounds start and nudge sequence. -/
theorem claim6_witness :
    roiRectInBounds 640 480 100 100
      (applyROINudges 640 480 100 100 (320, 240) [NudgeKey.up, NudgeKey.left]).1
      (applyROINudges 640 480 100 100 (320, 240) [NudgeKey.up, NudgeKey.left]).2 :=
  claim6_nudges_stay_in_bounds 640 480 100 100 (320, 240) [NudgeKey.up, NudgeKey.left]
    (by decide)

/-- The s key case of HandleMainKeys: enter live ROI selection, disabling
auto tracking and tracking, and center the selection. -/
def handleStartSelection (s : AppState) (frameCols frameRows : ℤ) : AppState :=
  if !s.roiSelectionMode then
    { s with
        autoTrackingEnabled := false
        trackingEnabled := false
        roiSelectionMode := true
        roiCenterX := Int.tdiv frameCols 2
        roiCenterY := Int.tdiv frameRows 2 }
  else s

/-- HandleEscapeKey from the input package.  During ROI selection the
selection is cancelled and auto tracking is re-enabled whenever tracking is
not active; the boolean result is the quit flag.  The recording cleanup on
the quit path touches no modelled field. -/
def HandleEscapeKey (s : AppState) : AppState × Bool :=
  if s.roiSelectionMode then
    ({ s with
        roiSelectionMode := false
        autoTrackingEnabled := if !s.trackingEnabled then true else s.autoTrackingEnabled },
      false)
  else (s, true)

/-- Claim C8, amended.  Cancelling a manual selection does not restore the
auto tracking preference from before the selection began: the state saves no
such preference, and HandleEscapeKey unconditionally enables auto tracking
when tracking is inactive (which it is, since entering selection disabled
it).  The result agrees with the prior preference only when that preference
was enabled; see the counterexample for the disabled case. -/
theorem claim8_cancel_enables_auto (s : AppState) (frameCols frameRows : ℤ)
    (hnosel : s.roiSelectionMode = false) :
    (HandleEscapeKey (handleStartSelection s frameCols frameRows)).1.roiSelectionMode = false ∧
    (HandleEscapeKey (handleStartSelection s frameCols frameRows)).1.autoTrackingEnabled = true ∧
    (HandleEscapeKey (handleStartSelection s frameCols frameRows)).2 = false := by
  simp [handleStartSelection, HandleEscapeKey, hnosel]

/-- Claim C8 counterexample.  Starting with auto tracking disabled, entering
selection with the s key and cancelling with ESC leaves auto tracking
enabled, not restored to its prior disabled value. -/
theorem claim8_counterexample :
    (⟨false, false, false, 0, emptyRect, 0, 0, 0, 100, 100⟩ : AppState).autoTrackingEnabled
      = false ∧
    (HandleEscapeKey (handleStartSelection
        ⟨false, false, false, 0, emptyRect, 0, 0, 0, 100, 100⟩ 640 480)).1.autoTrackingEnabled
      = true := by decide

/-- Claim C8 witness at a concrete state outside selection mode. -/
theorem claim8_witness :
    (HandleEscapeKey (handleStartSelection
        ⟨false, true, false, 0, emptyRect, 0, 0, 0, 100, 100⟩ 640 480)).1.roiSelectionMode
      = false ∧
    (HandleEscapeKey (handleStartSelection
        ⟨false, true, false, 0, emptyRect, 0, 0, 0, 100, 100⟩ 640 480)).1.autoTrackingEnabled
      = true ∧
    (HandleEscapeKey (handleStartSelection
        ⟨false, true, false, 0, emptyRect, 0, 0, 0, 100, 100⟩ 640 480)).2 = false :=
  claim8_cancel_enables_auto ⟨false, true, false, 0, emptyRect, 0, 0, 0, 100, 100⟩ 640 480 rfl
